import Mathlib

/-!
# Verification of `internal/tui/scripts/check_theme_parity.py` (DockSTARTer2)

A shallow embedding of the theme-parity diagnostic script.  The script
discovers theme names as the subdirectories of a hard-coded root, parses up to
three flat files per theme (a `.ds2theme` descriptor, a `theme.ini`, and a
`.dialogrc`), and prints a small report block per theme.

Modelling conventions:

* Python strings are Lean `String`s; the handful of string primitives the
  script uses (`in`, `split('=', 1)`, `strip()`, `strip("'\"")`,
  `startswith('#')`, `lower()`, `split(',')`, substring containment, and the
  regex search for the first parenthesized group) are embedded as executable
  functions over `String.toList`.
* A Python `dict` is an association list to which each assignment appends a
  binding; lookups take the *last* binding, which is observably equivalent to
  Python's overwrite semantics for the operations the script performs
  (`in`, `[]`, `.get`).
* The filesystem is a structure of two partial maps: `files` sends a regular
  file's path to its list of lines (without trailing newlines, which the
  script strips or never inspects), and `listing` sends an existing
  directory's path to its entry names in listing order.  A path absent from
  `files` is treated as nonexistent by the parsers (the script's
  `os.path.exists` guard); `listing p = none` models both a missing path and
  a non-directory, either of which makes `os.listdir` raise.
* `print` calls are modelled as abstract output events (`OutLine`), one per
  printed line, carrying exactly the data interpolated into the f-string;
  an `Option` payload of `none` corresponds to Python rendering the explicit
  `None` placeholder for a missing key (`dict.get` of an absent key).
* The one unhandled exception reachable after the header is printed — the
  `IndexError` from `rc['screen_color'][1]` when the parsed sequence has
  fewer than two elements — is modelled by a `Bool` crash flag; process-level
  outcomes are the `RunResult` type.
-/

/-! ## Embedded Python string primitives -/

/-- A quote character, i.e. one of the two characters in the Python trim set
`"'\""` (codes 39 and 34); used to embed `str.strip("'\"")`. -/
def isQuoteChar (c : Char) : Bool := c.toNat == 39 || c.toNat == 34

/-- The characters Python `str.strip()` removes: space, tab, newline,
carriage return, vertical tab, form feed. -/
def isPySpace (c : Char) : Bool :=
  c = ' ' || c = '\t' || c = '\n' || c = '\r' || c = '\x0b' || c = '\x0c'

/-- Remove the characters satisfying `p` from both ends of a character list. -/
def stripEnds (p : Char → Bool) (cs : List Char) : List Char :=
  ((cs.dropWhile p).reverse.dropWhile p).reverse

/-- Embedding of Python `s.strip()` (no arguments): trim whitespace from both
ends. -/
def pyStrip (s : String) : String := String.mk (stripEnds isPySpace s.toList)

/-- Embedding of Python `s.strip("'\"")`: character-set trim of every leading
and trailing run of single- or double-quote characters (not a balanced-quote
match). -/
def stripQuotes (s : String) : String := String.mk (stripEnds isQuoteChar s.toList)

/-- Embedding of Python `s.lower()` for the ASCII data the script handles. -/
def pyLower (s : String) : String := String.mk (s.toList.map Char.toLower)

/-- Embedding of Python `c in s` for a single character `c`. -/
def strContains (s : String) (c : Char) : Bool := s.toList.any (fun d => d = c)

/-- Embedding of Python `line.startswith('#')`. -/
def startsHash (s : String) : Bool :=
  match s.toList with
  | [] => false
  | c :: _ => c = '#'

/-- `listPrefixOf pat l`: `pat` is an initial segment of `l`. -/
def listPrefixOf : List Char → List Char → Bool
  | [], _ => true
  | _ :: _, [] => false
  | c :: cs, d :: ds => c = d && listPrefixOf cs ds

/-- `listSubstr pat l`: `pat` occurs contiguously somewhere in `l`. -/
def listSubstr (pat : List Char) : List Char → Bool
  | [] => listPrefixOf pat []
  | d :: ds => listPrefixOf pat (d :: ds) || listSubstr pat ds

/-- Embedding of Python substring containment `pat in s` (used by the inert
color helper on multi-character variable tokens). -/
def strIn (pat s : String) : Bool := listSubstr pat.toList s.toList

/-- The part of `line` strictly before the first `=`; together with
`afterFirstEq` this embeds Python `line.split('=', 1)` on a line that
contains `=`. -/
def beforeFirstEq (line : String) : String :=
  String.mk (line.toList.takeWhile (fun c => c ≠ '='))

/-- The part of `line` strictly after the first `=` (everything when no `=`
occurs is irrelevant: the callers guard on `strContains line`). -/
def afterFirstEq (line : String) : String :=
  String.mk (line.toList.drop ((line.toList.takeWhile (fun c => c ≠ '=')).length + 1))

/-- Embedding of Python `s.split(',')`: split on every comma, keeping empty
parts, never dropping characters. -/
def splitCommas : List Char → List (List Char)
  | [] => [[]]
  | c :: rest =>
    match splitCommas rest with
    | cur :: parts => if c = ',' then [] :: cur :: parts else (c :: cur) :: parts
    | [] => [[]]

/-- The run of non-`)` characters the regex's group `[^)]+` would consume
starting right after a `(`. -/
def groupInner (rest : List Char) : List Char := rest.takeWhile (fun d => d ≠ ')')

/-- Embedding of `re.search(r'\(([^)]+)\)', val)`: scan left to right for the
first position where a literal `(` is followed by a nonempty run of
non-`)` characters and then a `)`; return that run (the first group). -/
def firstGroup : List Char → Option (List Char)
  | [] => none
  | c :: rest =>
    if c = '(' then
      if groupInner rest ≠ [] ∧ rest.drop (groupInner rest).length ≠ [] then
        some (groupInner rest)
      else firstGroup rest
    else firstGroup rest

/-! ## Python dicts as association lists -/

/-- A Python `dict` with `String` keys, modelled as the list of assignments in
program order. -/
abbrev Dict (α : Type) := List (String × α)

/-- Lookup of the *last* binding of a key: the value of `d[k]` / `d.get(k)`
after all assignments in `d` were performed in order. -/
def dget {α : Type} : Dict α → String → Option α
  | [], _ => none
  | kv :: rest, k =>
    match dget rest k with
    | some v => some v
    | none => if kv.1 = k then some kv.2 else none

/-! ## The filesystem model and the three parsers -/

/-- The filesystem the script reads: `files` maps a regular file's path to
its lines, `listing` maps an existing directory's path to its entry names in
the (unspecified) order `os.listdir` returns. -/
structure FS where
  files : String → Option (List String)
  listing : String → Option (List String)

/-- `os.path.join`, with the platform separator abstracted to `/` (no claim
depends on the separator, only on distinct roots yielding distinct paths). -/
def pathJoin (a b : String) : String := a ++ "/" ++ b

/-- The hard-coded descriptor root (`GO_THEMES_DIR` in the source). -/
def GO_THEMES_DIR : String :=
  "c:/Users/CLHat/Documents/GitHub/GhostWriters/DockSTARTer2/internal/assets/themes"

/-- The hard-coded bash-theme root (`BASH_THEMES_DIR` in the source). -/
def BASH_THEMES_DIR : String :=
  "c:/Users/CLHat/Documents/GitHub/GhostWriters/DockSTARTer/assets/themes"

/-- The entry one line of `parse_ds2theme`'s loop contributes, if any: a line
containing `=` is split on the first `=`; the key is the left side stripped
of whitespace, the value the right side stripped of whitespace and then of
edge quote runs. -/
def ds2Entry (line : String) : Option (String × String) :=
  if strContains line '=' then
    some (pyStrip (beforeFirstEq line), stripQuotes (pyStrip (afterFirstEq line)))
  else none

/-- The entry one line of `parse_theme_ini`'s loop contributes, if any: as
`ds2Entry`, except a line starting with `#` contributes nothing. -/
def iniEntry (line : String) : Option (String × String) :=
  if strContains line '=' && !startsHash line then
    some (pyStrip (beforeFirstEq line), stripQuotes (pyStrip (afterFirstEq line)))
  else none

/-- The entry one line of `parse_dialogrc`'s loop contributes, if any: a line
containing both `=` and `(` is split on the first `=`; if the right side
holds a parenthesized group, the key (left side stripped) maps to the
group's interior split on commas, parts stored verbatim. -/
def rcEntry (line : String) : Option (String × List String) :=
  if strContains line '=' && strContains line '(' then
    match firstGroup (afterFirstEq line).toList with
    | some inner => some (pyStrip (beforeFirstEq line), (splitCommas inner).map String.mk)
    | none => none
  else none

/-- One iteration of a parser loop: perform the line's dict assignment, if
any (`Option.toList` is `[kv]` or `[]`). -/
def stepOf {α : Type} (entry : String → Option (String × α)) (d : Dict α)
    (line : String) : Dict α :=
  d ++ (entry line).toList

/-- The whole parser loop over a file's lines, starting from the empty dict. -/
def parseLines {α : Type} (entry : String → Option (String × α))
    (lines : List String) : Dict α :=
  lines.foldl (stepOf entry) []

/-- `parse_ds2theme(path)`: empty dict when the path does not exist,
otherwise the loop over the file's lines. -/
def parse_ds2theme (fs : FS) (path : String) : Dict String :=
  match fs.files path with
  | none => []
  | some lines => parseLines ds2Entry lines

/-- `parse_theme_ini(path)`. -/
def parse_theme_ini (fs : FS) (path : String) : Dict String :=
  match fs.files path with
  | none => []
  | some lines => parseLines iniEntry lines

/-- `parse_dialogrc(path)`. -/
def parse_dialogrc (fs : FS) (path : String) : Dict (List String) :=
  match fs.files path with
  | none => []
  | some lines => parseLines rcEntry lines

/-! ## The reporter -/

/-- One printed line of the report, carrying the interpolated data: a payload
of `none` is rendered by Python as the `None` placeholder. -/
inductive OutLine where
  | header (name : String)
  | goTitle (v : Option String)
  | bashTitle (v : Option String)
  | rcTitle (v : Option (List String))
  | rcScreen (v : Option (List String))
  | blank
  deriving DecidableEq, Repr

/-- `get_bash_color(val)`: the inert color-normalization helper; detects
which color-variable token occurs (first match of the if/elif chain wins,
`"NC"` when none does) and whether the reverse-video token occurs. -/
def get_bash_color (val : String) : String × Bool :=
  let res :=
    if strIn "$\x7b_W_\x7d" val then "white"
    else if strIn "$\x7b_G_\x7d" val then "green"
    else if strIn "$\x7b_C_\x7d" val then "cyan"
    else if strIn "$\x7b_M_\x7d" val then "magenta"
    else if strIn "$\x7b_Y_\x7d" val then "yellow"
    else if strIn "$\x7b_R_\x7d" val then "red"
    else if strIn "$\x7b_B_\x7d" val then "blue"
    else if strIn "$\x7b_K_\x7d" val then "black"
    else "NC"
  (res, strIn "$\x7b_RV_\x7d" val)

/-- The keys the inert helper loop iterates over. -/
def helperKeys : List String :=
  ["Title", "Subtitle", "TitleSuccess", "TitleError", "TitleWarning"]

/-- The inert per-key helper loop of `check_parity`: for each key present in
both the INI and the descriptor map, compute `get_bash_color` of the INI
value and discard it (the loop body ends in `pass`). -/
def helperLoop (ini go : Dict String) : List (String × Bool) :=
  helperKeys.filterMap (fun k =>
    match dget ini k, dget go k with
    | some v, some _ => some (get_bash_color v)
    | _, _ => none)

/-- The path of `<name>.ds2theme` under the descriptor root. -/
def goPath (name : String) : String := pathJoin GO_THEMES_DIR (name ++ ".ds2theme")

/-- The path of `<name>/theme.ini` under the bash root. -/
def iniPath (name : String) : String :=
  pathJoin (pathJoin BASH_THEMES_DIR name) "theme.ini"

/-- The path of `<name>/.dialogrc` under the bash root. -/
def rcPath (name : String) : String :=
  pathJoin (pathJoin BASH_THEMES_DIR name) ".dialogrc"

/-- The tail of the report after the screen-background extraction survived:
the dead `screen_bg` value and the dead helper loop are computed and
discarded, then the four value lines and the blank separator are printed. -/
def finishReport (name : String) (go ini : Dict String) (rc : Dict (List String))
    (screen_bg : String) : List OutLine × Bool :=
  let _deadBg := screen_bg
  let _deadLoop := helperLoop ini go
  ([OutLine.header name,
    OutLine.goTitle (dget go "Title"),
    OutLine.bashTitle (dget ini "Title"),
    OutLine.rcTitle (dget rc "title_color"),
    OutLine.rcScreen (dget rc "screen_color"),
    OutLine.blank], false)

/-- `check_parity(name)`: print the header, parse the three files, extract
the screen background (raising `IndexError` — the `true` crash flag — when
`screen_color` is present with fewer than two elements), run the inert
helper loop, and print the four value lines and a blank line. -/
def check_parity (fs : FS) (name : String) : List OutLine × Bool :=
  let go := parse_ds2theme fs (goPath name)
  let ini := parse_theme_ini fs (iniPath name)
  let rc := parse_dialogrc fs (rcPath name)
  match dget rc "screen_color" with
  | some sc =>
    match sc[1]? with
    | none => ([OutLine.header name], true)
    | some e => finishReport name go ini rc (pyLower (pyStrip e))
  | none => finishReport name go ini rc "black"

/-- The variant of `check_parity` with the inert helper and its surrounding
computation (screen-background extraction and per-key loop) removed. -/
def check_parity_stripped (fs : FS) (name : String) : List OutLine × Bool :=
  let go := parse_ds2theme fs (goPath name)
  let ini := parse_theme_ini fs (iniPath name)
  let rc := parse_dialogrc fs (rcPath name)
  ([OutLine.header name,
    OutLine.goTitle (dget go "Title"),
    OutLine.bashTitle (dget ini "Title"),
    OutLine.rcTitle (dget rc "title_color"),
    OutLine.rcScreen (dget rc "screen_color"),
    OutLine.blank], false)

/-! ## Discovery and the whole run -/

/-- The theme-discovery expression: list the bash root and keep the entries
that are directories, in listing order; `none` models the uncaught
`FileNotFoundError`/`NotADirectoryError` from `os.listdir`. -/
def themes (fs : FS) : Option (List String) :=
  (fs.listing BASH_THEMES_DIR).map (fun es =>
    es.filter (fun d => (fs.listing (pathJoin BASH_THEMES_DIR d)).isSome))

/-- The outcome of the whole script: discovery failed before any output, or
a crash mid-report with the output printed so far, or normal completion. -/
inductive RunResult where
  | fsError
  | crashed (out : List OutLine)
  | ok (out : List OutLine)
  deriving DecidableEq, Repr

/-- The main loop over discovered themes: concatenate the report blocks,
stopping at the first crash. -/
def runThemes (fs : FS) : List String → List OutLine × Bool
  | [] => ([], false)
  | t :: rest =>
    match check_parity fs t with
    | (out, true) => (out, true)
    | (out, false) =>
      match runThemes fs rest with
      | (out2, c2) => (out ++ out2, c2)

/-- The whole script. -/
def runMain (fs : FS) : RunResult :=
  match themes fs with
  | none => RunResult.fsError
  | some ts =>
    match runThemes fs ts with
    | (out, true) => RunResult.crashed out
    | (out, false) => RunResult.ok out

/-- The main loop with the stripped reporter (never crashes mid-report). -/
def runThemesStripped (fs : FS) : List String → List OutLine
  | [] => []
  | t :: rest => (check_parity_stripped fs t).1 ++ runThemesStripped fs rest

/-- The whole script with the stripped reporter. -/
def runMainStripped (fs : FS) : RunResult :=
  match themes fs with
  | none => RunResult.fsError
  | some ts => RunResult.ok (runThemesStripped fs ts)

/-! ## Helper lemmas -/

theorem foldl_stepOf {α : Type} (e : String → Option (String × α)) :
    ∀ (lines : List String) (d : Dict α),
      lines.foldl (stepOf e) d = d ++ lines.foldl (stepOf e) [] := by
  intro lines
  induction lines with
  | nil => intro d; simp
  | cons line rest ih =>
    intro d
    simp only [List.foldl_cons]
    rw [ih (stepOf e d line), ih (stepOf e [] line)]
    simp [stepOf, List.append_assoc]

theorem parseLines_cons {α : Type} (e : String → Option (String × α))
    (line : String) (rest : List String) :
    parseLines e (line :: rest) = (e line).toList ++ parseLines e rest := by
  simp only [parseLines, List.foldl_cons]
  rw [foldl_stepOf]
  simp [stepOf]

theorem parseLines_append {α : Type} (e : String → Option (String × α))
    (xs ys : List String) :
    parseLines e (xs ++ ys) = parseLines e xs ++ parseLines e ys := by
  simp only [parseLines, List.foldl_append]
  rw [foldl_stepOf e ys (List.foldl (stepOf e) [] xs)]

theorem dget_append_some {α : Type} (d1 d2 : Dict α) (k : String) (v : α)
    (h : dget d2 k = some v) : dget (d1 ++ d2) k = some v := by
  induction d1 with
  | nil => simpa using h
  | cons kv rest ih =>
    show dget (kv :: (rest ++ d2)) k = some v
    unfold dget
    rw [ih]

theorem dget_append_none {α : Type} (d1 d2 : Dict α) (k : String)
    (h : dget d2 k = none) : dget (d1 ++ d2) k = dget d1 k := by
  induction d1 with
  | nil => simpa using h
  | cons kv rest ih =>
    show dget (kv :: (rest ++ d2)) k = dget (kv :: rest) k
    unfold dget
    rw [ih]

theorem dget_parseLines_none {α : Type} (e : String → Option (String × α))
    (lines : List String) (k : String)
    (h : ∀ l ∈ lines, ∀ w, e l ≠ some (k, w)) :
    dget (parseLines e lines) k = none := by
  induction lines with
  | nil => rfl
  | cons line rest ih =>
    rw [parseLines_cons]
    have hrest : dget (parseLines e rest) k = none :=
      ih (fun l hl w => h l (List.mem_cons_of_mem line hl) w)
    rw [dget_append_none _ _ _ hrest]
    cases he : e line with
    | none => rfl
    | some kv =>
      have hk : kv.1 ≠ k := by
        intro hkk
        exact h line (List.mem_cons_self line rest) kv.2 (by rw [he, ← hkk])
      simp [Option.toList, dget, hk]

theorem dget_parseLines_last {α : Type} (e : String → Option (String × α))
    (l1 : List String) (line : String) (l2 : List String) (k : String) (v : α)
    (hline : e line = some (k, v))
    (hafter : ∀ l ∈ l2, ∀ w, e l ≠ some (k, w)) :
    dget (parseLines e (l1 ++ line :: l2)) k = some v := by
  rw [parseLines_append, parseLines_cons, hline]
  apply dget_append_some
  have h2 : dget (parseLines e l2) k = none := dget_parseLines_none e l2 k hafter
  rw [dget_append_none _ _ _ h2]
  simp [Option.toList, dget]

theorem takeWhile_eq_of_break (p : Char → Bool) (s1 s2 : List Char) (c : Char)
    (h1 : ∀ x ∈ s1, p x = true) (hc : p c = false) :
    (s1 ++ c :: s2).takeWhile p = s1 := by
  induction s1 with
  | nil => simp [List.takeWhile_cons, hc]
  | cons a as ih =>
    have ha : p a = true := h1 a (List.mem_cons_self a as)
    simp only [List.cons_append, List.takeWhile_cons, ha, if_true]
    rw [ih (fun x hx => h1 x (List.mem_cons_of_mem a hx))]

theorem takeWhile_eq_self_of (p : Char → Bool) (l : List Char)
    (h : ∀ x ∈ l, p x = true) : l.takeWhile p = l := by
  induction l with
  | nil => rfl
  | cons a as ih =>
    have ha : p a = true := h a (List.mem_cons_self a as)
    simp only [List.takeWhile_cons, ha, if_true]
    rw [ih (fun x hx => h x (List.mem_cons_of_mem a hx))]

theorem strContains_of_mem (s : String) (c : Char) (h : c ∈ s.toList) :
    strContains s c = true :=
  List.any_eq_true.mpr ⟨c, h, by simp⟩

theorem decide_ne_of_not_mem (c : Char) (s : List Char) (h : c ∉ s) :
    ∀ x ∈ s, decide (x ≠ c) = true := by
  intro x hx
  simp only [ne_eq, decide_eq_true_eq]
  intro hxx
  exact h (hxx ▸ hx)

theorem beforeFirstEq_of_decomp (line : String) (s1 s2 : List Char)
    (hdec : line.toList = s1 ++ '=' :: s2) (hs1 : '=' ∉ s1) :
    beforeFirstEq line = String.mk s1 := by
  unfold beforeFirstEq
  rw [hdec, takeWhile_eq_of_break _ s1 s2 '=' (decide_ne_of_not_mem '=' s1 hs1) (by simp)]

theorem afterFirstEq_of_decomp (line : String) (s1 s2 : List Char)
    (hdec : line.toList = s1 ++ '=' :: s2) (hs1 : '=' ∉ s1) :
    afterFirstEq line = String.mk s2 := by
  unfold afterFirstEq
  rw [hdec, takeWhile_eq_of_break _ s1 s2 '=' (decide_ne_of_not_mem '=' s1 hs1) (by simp)]
  have hsplit : s1 ++ '=' :: s2 = (s1 ++ ['=']) ++ s2 := by simp
  rw [hsplit]
  have hlen : s1.length + 1 = (s1 ++ ['=']).length := by simp
  rw [hlen, List.drop_left]

theorem firstGroup_at (p inner rest : List Char)
    (hp : '(' ∉ p) (hinner : ')' ∉ inner) (hne : inner ≠ []) :
    firstGroup (p ++ '(' :: (inner ++ ')' :: rest)) = some inner := by
  induction p with
  | nil =>
    rw [List.nil_append]
    have htw : groupInner (inner ++ ')' :: rest) = inner := by
      unfold groupInner
      exact takeWhile_eq_of_break _ inner rest ')'
        (decide_ne_of_not_mem ')' inner hinner) (by simp)
    have hdrop : (inner ++ ')' :: rest).drop inner.length = ')' :: rest :=
      List.drop_left inner (')' :: rest)
    unfold firstGroup
    rw [if_pos rfl, htw, hdrop]
    have hcond : inner ≠ [] ∧ ')' :: rest ≠ [] := ⟨hne, by simp⟩
    rw [if_pos hcond]
  | cons a as ih =>
    have ha : ¬ a = '(' := by
      intro haa
      exact hp (by rw [haa]; exact List.mem_cons_self '(' as)
    rw [List.cons_append]
    have hp' : '(' ∉ as := fun hm => hp (List.mem_cons_of_mem a hm)
    unfold firstGroup
    rw [if_neg ha]
    exact ih hp'

theorem firstGroup_none_of_no_close (l : List Char)
    (h : ∀ p q : List Char, l = p ++ '(' :: q → ')' ∉ q) :
    firstGroup l = none := by
  induction l with
  | nil => rfl
  | cons c rest ih =>
    have hrec : firstGroup rest = none := by
      apply ih
      intro p q hpq
      exact h (c :: p) q (by rw [hpq, List.cons_append])
    by_cases hc : c = '('
    · subst hc
      have hrest : ')' ∉ rest := h [] rest (by rw [List.nil_append])
      have htw : groupInner rest = rest := by
        unfold groupInner
        exact takeWhile_eq_self_of _ rest (decide_ne_of_not_mem ')' rest hrest)
      unfold firstGroup
      rw [if_pos rfl, htw, List.drop_length]
      rw [if_neg (by simp)]
      exact hrec
    · unfold firstGroup
      rw [if_neg hc]
      exact hrec

/-! ## Concrete filesystems used as witnesses and counterexamples -/

/-- A filesystem on which the discovered theme `t` has a `.dialogrc` whose
`screen_color` group holds a single element (no comma). -/
def crashFS : FS where
  files := fun p => if p = rcPath "t" then some ["screen_color = (CYAN)"] else none
  listing := fun p =>
    if p = BASH_THEMES_DIR then some ["t"]
    else if p = pathJoin BASH_THEMES_DIR "t" then some [] else none

/-- A filesystem on which the discovered theme `t` has a well-formed
`.dialogrc` and `theme.ini` but no `.ds2theme` descriptor. -/
def okFS : FS where
  files := fun p =>
    if p = rcPath "t" then
      some ["screen_color = (BLACK,GREEN,ON)", "title_color = (GREEN,BLACK,OFF)"]
    else if p = iniPath "t" then some ["Title=hello"]
    else none
  listing := fun p =>
    if p = BASH_THEMES_DIR then some ["t"]
    else if p = pathJoin BASH_THEMES_DIR "t" then some [] else none

/-- The empty filesystem: no files, no directories. -/
def emptyFS : FS where
  files := fun _ => none
  listing := fun _ => none

/-- A filesystem with one file of two lines assigning the same key, each line
producing an entry under all three parsers. -/
def dupFS : FS where
  files := fun p => if p = "/f" then some ["a=(1,x)", "a=(2,y)"] else none
  listing := fun _ => none

/-! ## Claim theorems -/

/-- Claim C2: a line of the descriptor parser contributes an entry iff it
contains `=`; when it does, the split is at the *first* `=` (any
decomposition `s1 ++ '=' :: s2` with no `=` in `s1`), the key is the left
side whitespace-stripped, and the value is the right side
whitespace-stripped and then character-set-trimmed of edge quote runs. -/
theorem c2_descriptor_line_rule (d : Dict String) (line : String) :
    (strContains line '=' = false → stepOf ds2Entry d line = d)
    ∧ (strContains line '=' = true → stepOf ds2Entry d line ≠ d)
    ∧ (∀ s1 s2 : List Char, line.toList = s1 ++ '=' :: s2 → '=' ∉ s1 →
        stepOf ds2Entry d line =
          d ++ [(pyStrip (String.mk s1), stripQuotes (pyStrip (String.mk s2)))]) := by
  refine ⟨?_, ?_, ?_⟩
  · intro h
    simp [stepOf, ds2Entry, h]
  · intro h heq
    have he : ds2Entry line =
        some (pyStrip (beforeFirstEq line), stripQuotes (pyStrip (afterFirstEq line))) := by
      simp [ds2Entry, h]
    have hlen := congrArg List.length heq
    simp only [stepOf, he, Option.toList_some, List.length_append,
      List.length_cons, List.length_nil] at hlen
    omega
  · intro s1 s2 hdec hs1
    have hc : strContains line '=' = true :=
      strContains_of_mem line '='
        (by rw [hdec]; exact List.mem_append_right s1 (List.mem_cons_self '=' s2))
    simp [stepOf, ds2Entry, hc, beforeFirstEq_of_decomp line s1 s2 hdec hs1,
      afterFirstEq_of_decomp line s1 s2 hdec hs1]

/-- Witness for C2: a line without `=` contributes nothing; a `key=value`
line with stray edge quote runs is trimmed by character set. -/
theorem c2_witness :
    stepOf ds2Entry [] "nokey" = [] ∧
    stepOf ds2Entry [] " a = \"\"x\"\" " = [("a", "x")] := by
  constructor
  · exact (c2_descriptor_line_rule [] "nokey").1 (by decide)
  · have h := (c2_descriptor_line_rule [] " a = \"\"x\"\" ").2.2
      [' ', 'a', ' '] [' ', '"', '"', 'x', '"', '"', ' '] (by decide) (by decide)
    rw [h]
    decide

/-- Claim C3: a dialog-parser line containing `=` whose right side (after the
first `=`) holds a parenthesized group — first `(` (none earlier in the
right side), nonempty interior with no `)`, closed by the first `)` — maps
the trimmed key to the interior split on commas, parts stored verbatim. -/
theorem c3_dialog_line_rule (d : Dict (List String)) (line : String)
    (p inner rest : List Char)
    (heq : strContains line '=' = true)
    (hval : (afterFirstEq line).toList = p ++ '(' :: (inner ++ ')' :: rest))
    (hp : '(' ∉ p) (hinner : ')' ∉ inner) (hne : inner ≠ []) :
    stepOf rcEntry d line =
      d ++ [(pyStrip (beforeFirstEq line), (splitCommas inner).map String.mk)] := by
  have hparen : strContains line '(' = true := by
    apply strContains_of_mem
    have h1 : '(' ∈ (afterFirstEq line).toList := by
      rw [hval]
      exact List.mem_append_right p (List.mem_cons_self '(' _)
    have h2 : (afterFirstEq line).toList =
        line.toList.drop ((line.toList.takeWhile (fun c => c ≠ '=')).length + 1) := rfl
    rw [h2] at h1
    exact List.mem_of_mem_drop h1
  have hfg : firstGroup (afterFirstEq line).toList = some inner := by
    rw [hval]
    exact firstGroup_at p inner rest hp hinner hne
  have hfg' : firstGroup (afterFirstEq line).data = some inner := hfg
  simp [stepOf, rcEntry, heq, hparen, hfg, hfg']

/-- Witness for C3: the scenario-2 line `screen_color = (BLACK,GREEN,ON)`. -/
theorem c3_witness :
    stepOf rcEntry [] "screen_color = (BLACK,GREEN,ON)" =
      [("screen_color", ["BLACK", "GREEN", "ON"])] := by
  have h := c3_dialog_line_rule [] "screen_color = (BLACK,GREEN,ON)"
    [' '] ['B', 'L', 'A', 'C', 'K', ',', 'G', 'R', 'E', 'E', 'N', ',', 'O', 'N'] []
    (by decide) (by decide) (by decide) (by decide) (by decide)
  rw [h]
  decide

/-- Claim C4: a nonexistent file path yields the empty mapping from each of
the three parsers, and no error (the functions are total). -/
theorem c4_missing_file_empty (fs : FS) (path : String) (h : fs.files path = none) :
    parse_ds2theme fs path = [] ∧ parse_theme_ini fs path = [] ∧
      parse_dialogrc fs path = [] := by
  refine ⟨?_, ?_, ?_⟩ <;> simp [parse_ds2theme, parse_theme_ini, parse_dialogrc, h]

/-- Witness for C4: all three parsers return the empty mapping on a path the
empty filesystem does not contain. -/
theorem c4_witness :
    parse_ds2theme emptyFS "/nope" = [] ∧ parse_theme_ini emptyFS "/nope" = [] ∧
      parse_dialogrc emptyFS "/nope" = [] :=
  c4_missing_file_empty emptyFS "/nope" rfl

/-- Claim C7: in all three parsers, if a line of the file produces an entry
for key `k` and no later line produces an entry for `k`, the returned
mapping holds that line's value for `k` (the last occurrence wins). -/
theorem c7_duplicate_last_wins (fs : FS) (path : String) (l1 : List String)
    (line : String) (l2 : List String) (k : String)
    (hfile : fs.files path = some (l1 ++ line :: l2)) :
    (∀ v, ds2Entry line = some (k, v) →
        (∀ l ∈ l2, ∀ w, ds2Entry l ≠ some (k, w)) →
        dget (parse_ds2theme fs path) k = some v)
    ∧ (∀ v, iniEntry line = some (k, v) →
        (∀ l ∈ l2, ∀ w, iniEntry l ≠ some (k, w)) →
        dget (parse_theme_ini fs path) k = some v)
    ∧ (∀ v, rcEntry line = some (k, v) →
        (∀ l ∈ l2, ∀ w, rcEntry l ≠ some (k, w)) →
        dget (parse_dialogrc fs path) k = some v) := by
  refine ⟨?_, ?_, ?_⟩
  · intro v hv hafter
    simp only [parse_ds2theme, hfile]
    exact dget_parseLines_last ds2Entry l1 line l2 k v hv hafter
  · intro v hv hafter
    simp only [parse_theme_ini, hfile]
    exact dget_parseLines_last iniEntry l1 line l2 k v hv hafter
  · intro v hv hafter
    simp only [parse_dialogrc, hfile]
    exact dget_parseLines_last rcEntry l1 line l2 k v hv hafter

/-- Witness for C7: a file assigning `a` twice; each parser returns the value
of the second assignment. -/
theorem c7_witness :
    dget (parse_ds2theme dupFS "/f") "a" = some "(2,y)" ∧
    dget (parse_theme_ini dupFS "/f") "a" = some "(2,y)" ∧
    dget (parse_dialogrc dupFS "/f") "a" = some ["2", "y"] := by
  have h := c7_duplicate_last_wins dupFS "/f" ["a=(1,x)"] "a=(2,y)" [] "a" (by decide)
  exact ⟨h.1 "(2,y)" (by decide) (by simp),
         h.2.1 "(2,y)" (by decide) (by simp),
         h.2.2 ["2", "y"] (by decide) (by simp)⟩

/-- Claim C8: an INI-parser line starting with `#` contributes nothing,
regardless of `=`; any other line follows exactly the descriptor parser's
per-line rule. -/
theorem c8_ini_comment_rule (d : Dict String) (line : String) :
    (startsHash line = true → stepOf iniEntry d line = d)
    ∧ (startsHash line = false → stepOf iniEntry d line = stepOf ds2Entry d line) := by
  constructor
  · intro h
    simp [stepOf, iniEntry, h]
  · intro h
    simp [stepOf, iniEntry, ds2Entry, h]

/-- Witness for C8: a comment line containing `=` is dropped; a plain line is
treated exactly as by the descriptor parser. -/
theorem c8_witness :
    stepOf iniEntry [] "#a=b" = [] ∧
    stepOf iniEntry [] "a=b" = stepOf ds2Entry [] "a=b" :=
  ⟨(c8_ini_comment_rule [] "#a=b").1 (by decide),
   (c8_ini_comment_rule [] "a=b").2 (by decide)⟩

/-- Claim C9: a dialog-parser line with no `(` at all, or whose right side
(after the first `=`) has no `)` after any `(`, contributes no entry and is
skipped without error (the function is total). -/
theorem c9_dialog_no_group_skipped (d : Dict (List String)) (line : String)
    (h : strContains line '(' = false ∨
         ∀ p q : List Char, (afterFirstEq line).toList = p ++ '(' :: q → ')' ∉ q) :
    stepOf rcEntry d line = d := by
  rcases h with h | h
  · simp [stepOf, rcEntry, h]
  · have hfg : firstGroup (afterFirstEq line).toList = none :=
      firstGroup_none_of_no_close _ h
    have hfg' : firstGroup (afterFirstEq line).data = none := hfg
    by_cases hc : (strContains line '=' && strContains line '(') = true
    · simp [stepOf, rcEntry, hc, hfg, hfg']
    · simp [stepOf, rcEntry, hc]

/-- Witness for C9: a parenthesis-free line contributes no entry. -/
theorem c9_witness : stepOf rcEntry [] "k=v" = [] :=
  c9_dialog_no_group_skipped [] "k=v" (Or.inl (by decide))

/-! ## Reporter lemmas and claims -/

theorem check_parity_ok (fs : FS) (name : String)
    (h : ∀ l, dget (parse_dialogrc fs (rcPath name)) "screen_color" = some l →
        2 ≤ l.length) :
    check_parity fs name = check_parity_stripped fs name := by
  cases hsc : dget (parse_dialogrc fs (rcPath name)) "screen_color" with
  | none => simp [check_parity, check_parity_stripped, finishReport, hsc]
  | some sc =>
    have hlen : 2 ≤ sc.length := h sc hsc
    have h1 := List.getElem?_eq_getElem (show 1 < sc.length by omega)
    simp [check_parity, check_parity_stripped, finishReport, hsc, h1]

/-- Claim C6: when the dialog map holds `screen_color` with fewer than two
elements, `check_parity` stops with the unhandled index error right after
printing only the theme header, never reaching the report block. -/
theorem c6_short_screen_color_crash (fs : FS) (name : String) (sc : List String)
    (hsc : dget (parse_dialogrc fs (rcPath name)) "screen_color" = some sc)
    (hlen : sc.length < 2) :
    check_parity fs name = ([OutLine.header name], true) := by
  have h1 : sc[1]? = none := List.getElem?_eq_none (by omega)
  simp [check_parity, hsc, h1]

/-- Witness for C6: on `crashFS` the theme `t` has `screen_color = (CYAN)`
(a one-element group), and the reporter crashes after the header. -/
theorem c6_witness :
    dget (parse_dialogrc crashFS (rcPath "t")) "screen_color" = some ["CYAN"] ∧
    check_parity crashFS "t" = ([OutLine.header "t"], true) := by
  have hsc : dget (parse_dialogrc crashFS (rcPath "t")) "screen_color" =
      some ["CYAN"] := by decide
  exact ⟨hsc, c6_short_screen_color_crash crashFS "t" ["CYAN"] hsc (by decide)⟩

/-- C1 as stated is false: on `crashFS` the theme `t` is discovered, yet the
reporter does not print the six-line block — it raises the index error after
printing only the header. -/
theorem c1_counterexample :
    themes crashFS = some ["t"] ∧
    check_parity crashFS "t" = ([OutLine.header "t"], true) := by
  constructor
  · decide
  · decide

/-- Claim C1 (amended): for every theme whose parsed dialog map either lacks
`screen_color` or maps it to at least two elements, the reporter prints, in
this exact order: the header, the descriptor map's `Title`, the INI map's
`Title`, the dialog map's `title_color` triple, the dialog map's
`screen_color` triple, and a blank line — each absent field carried as
`none` (rendered as Python's `None` placeholder), with no missing-key
error (the `false` flag: no exception). -/
theorem c1_report_block (fs : FS) (name : String)
    (h : ∀ l, dget (parse_dialogrc fs (rcPath name)) "screen_color" = some l →
        2 ≤ l.length) :
    check_parity fs name =
      ([OutLine.header name,
        OutLine.goTitle (dget (parse_ds2theme fs (goPath name)) "Title"),
        OutLine.bashTitle (dget (parse_theme_ini fs (iniPath name)) "Title"),
        OutLine.rcTitle (dget (parse_dialogrc fs (rcPath name)) "title_color"),
        OutLine.rcScreen (dget (parse_dialogrc fs (rcPath name)) "screen_color"),
        OutLine.blank], false) := by
  rw [check_parity_ok fs name h]
  rfl

/-- Witness for C1: on `okFS` the theme `t` has no `.ds2theme` descriptor
(spec scenario 3), and the block is printed with the missing placeholder in
the `Go Title` line and no crash. -/
theorem c1_witness :
    check_parity okFS "t" =
      ([OutLine.header "t", OutLine.goTitle none, OutLine.bashTitle (some "hello"),
        OutLine.rcTitle (some ["GREEN", "BLACK", "OFF"]),
        OutLine.rcScreen (some ["BLACK", "GREEN", "ON"]), OutLine.blank], false) := by
  have hok : ∀ l, dget (parse_dialogrc okFS (rcPath "t")) "screen_color" = some l →
      2 ≤ l.length := by
    intro l hl
    have hc : dget (parse_dialogrc okFS (rcPath "t")) "screen_color" =
        some ["BLACK", "GREEN", "ON"] := by decide
    rw [hc] at hl
    simp only [Option.some.injEq] at hl
    subst hl
    decide
  rw [c1_report_block okFS "t" hok]
  decide

theorem runThemes_ok (fs : FS) (ts : List String)
    (h : ∀ t ∈ ts, ∀ l, dget (parse_dialogrc fs (rcPath t)) "screen_color" = some l →
        2 ≤ l.length) :
    runThemes fs ts = (runThemesStripped fs ts, false) := by
  induction ts with
  | nil => rfl
  | cons t rest ih =>
    have hc : check_parity fs t = check_parity_stripped fs t :=
      check_parity_ok fs t (h t (List.mem_cons_self t rest))
    have hr := ih (fun u hu => h u (List.mem_cons_of_mem t hu))
    simp [runThemes, runThemesStripped, hc, hr, check_parity_stripped]

/-- C5 as stated is false: on `crashFS` the reporter's printed output (header
only, then the crash) differs from the stripped variant's output (the full
block), because the screen-background extraction that gets removed is the
code that raises the index error. -/
theorem c5_counterexample : runMain crashFS ≠ runMainStripped crashFS := by decide

/-- Claim C5 (amended): on every filesystem on which no discovered theme's
parsed dialog map holds a `screen_color` entry of fewer than two elements,
the printed output of the script equals that of the variant with the inert
color-normalization helper and its surrounding computation removed. -/
theorem c5_inert_helper (fs : FS)
    (h : ∀ t ∈ (themes fs).getD [], ∀ l,
        dget (parse_dialogrc fs (rcPath t)) "screen_color" = some l → 2 ≤ l.length) :
    runMain fs = runMainStripped fs := by
  cases hts : themes fs with
  | none => simp [runMain, runMainStripped, hts]
  | some ts =>
    rw [hts] at h
    simp only [Option.getD_some] at h
    simp [runMain, runMainStripped, hts, runThemes_ok fs ts h]

/-- Witness for C5: the two variants agree on `okFS`. -/
theorem c5_witness : runMain okFS = runMainStripped okFS := by
  apply c5_inert_helper
  intro t ht l hl
  have hts : (themes okFS).getD [] = ["t"] := by decide
  rw [hts] at ht
  have ht' : t = "t" := by simpa using ht
  subst ht'
  have hc : dget (parse_dialogrc okFS (rcPath "t")) "screen_color" =
      some ["BLACK", "GREEN", "ON"] := by decide
  rw [hc] at hl
  simp only [Option.some.injEq] at hl
  subst hl
  decide

/-- Claim C10: when the bash root is missing or not a directory, discovery
fails and the run terminates with the filesystem error before any report
output; otherwise discovery returns exactly the root's immediate
subdirectory names, in listing order. -/
theorem c10_discovery (fs : FS) :
    (fs.listing BASH_THEMES_DIR = none →
        themes fs = none ∧ runMain fs = RunResult.fsError)
    ∧ (∀ es, fs.listing BASH_THEMES_DIR = some es →
        themes fs =
          some (es.filter (fun d => (fs.listing (pathJoin BASH_THEMES_DIR d)).isSome))) := by
  constructor
  · intro h
    constructor
    · simp [themes, h]
    · simp [runMain, themes, h]
  · intro es h
    simp [themes, h]

/-- Witness for C10: on the empty filesystem the run is the filesystem error
with no output; on `okFS` discovery yields exactly the subdirectory `t`. -/
theorem c10_witness :
    themes emptyFS = none ∧ runMain emptyFS = RunResult.fsError ∧
      themes okFS = some ["t"] := by
  refine ⟨((c10_discovery emptyFS).1 rfl).1, ((c10_discovery emptyFS).1 rfl).2, ?_⟩
  have h := (c10_discovery okFS).2 ["t"] (by decide)
  rw [h]
  decide
